import Mathlib

/-!
# Verification of the dotprompt core pipeline

A shallow embedding of the prompt-file core of the `dotprompt` Go library
(`dotprompt.go`): the document model, name sanitization, document
construction with output-format reconciliation, parameter binding and
validation, prompt generation with JSON augmentation, and serialization.

Dynamic Go values (`interface{}`) are embedded as the tagged union
`GoValue`; Go maps are embedded as association lists with `List.lookup`
semantics; fallible operations return `Except PromptError`.  The byte-level
YAML encoding/decoding is performed by the external `yaml.v3` library; it
is abstracted by the document tree `YamlDoc`, with `Serialize` producing
the tree that the YAML encoder would emit (honouring the struct tags'
`omitempty` behaviour) and document construction consuming such a tree.
-/

deriving instance DecidableEq for Except

namespace Dotprompt

/-- Embeds `PromptError` from the source: an error carrying a message string. -/
structure PromptError where
  Message : String
deriving Repr, DecidableEq

/-- Embeds `OutputFormat` from the source: `Text` or `Json`. -/
inductive OutputFormat where
  | Text
  | Json
deriving Repr, DecidableEq

/-- Opaque carrier for a Go `float32`/`float64` payload.  The core never
computes with floating-point values: they are only stored and re-emitted,
so the payload is kept abstract (identified by its textual form). -/
structure GoFloat where
  repr : String
deriving Repr, DecidableEq

/-- Opaque carrier for a Go `time.Time` payload, which the core only ever
stores, type-tests, and renders. -/
structure GoTime where
  repr : String
deriving Repr, DecidableEq

/-- A dynamically typed Go value (`interface{}`) as seen by the binder and
validator: strings, signed integers (`int`, `int8`..`int64`), unsigned
integers (`uint`, `uint8`..`uint64`), floats, booleans, `time.Time`
values, and structured values.  A structured value carries its fields (in
declaration order, each already rendered to text, as `fmt` would) and
optionally the result of a `String()` method when it implements
`fmt.Stringer`. -/
inductive GoValue where
  | str (s : String)
  | int (n : Int)
  | uint (n : Nat)
  | float (f : GoFloat)
  | bool (b : Bool)
  | time (t : GoTime)
  | obj (fields : List (String × String)) (stringer : Option String)
deriving Repr, DecidableEq

/-- A Go `map[string]T` as an association list with `List.lookup`
semantics (a Go map never holds duplicate keys). -/
abbrev ValueMap := List (String × GoValue)

/-- Embeds `InputSchema` from the source: declared parameters and defaults. -/
structure InputSchema where
  Parameters : List (String × String)
  Default : ValueMap
deriving Repr, DecidableEq

/-- Embeds `OutputSchema` from the source: the nested output configuration. -/
structure OutputSchema where
  Format : OutputFormat
deriving Repr, DecidableEq

/-- Embeds `PromptConfig` from the source. -/
structure PromptConfig where
  Temperature : Option GoFloat
  MaxTokens : Option Int
  OutputFormat : OutputFormat
  Input : InputSchema
  Output : Option OutputSchema
deriving Repr, DecidableEq

/-- Embeds `Prompts` from the source: system and user templates. -/
structure Prompts where
  System : String
  User : String
deriving Repr, DecidableEq

/-- Embeds `FewShotPromptPair` from the source. -/
structure FewShotPromptPair where
  User : String
  Response : String
deriving Repr, DecidableEq

/-- Embeds `PromptFile` from the source. -/
structure PromptFile where
  Name : String
  Model : String
  Config : PromptConfig
  Prompts : Prompts
  FewShots : List FewShotPromptPair
deriving Repr, DecidableEq

/-- Embeds `validDataTypes` from the source. -/
def validDataTypes : List String := ["string", "number", "bool", "datetime", "object"]

/-! ## Name sanitization (`cleanName`) -/

/-- Membership in the character class `[A-Za-z0-9 \-\r\n]` kept by
`invalidCharsRegex` (everything outside it is stripped), stated on the
code point: `A-Z` is 65-90, `a-z` is 97-122, `0-9` is 48-57, space is 32,
`-` is 45, `\r` is 13, `\n` is 10. -/
def isValidChar (c : Char) : Bool :=
  (65 ≤ c.toNat && c.toNat ≤ 90) ||
  (97 ≤ c.toNat && c.toNat ≤ 122) ||
  (48 ≤ c.toNat && c.toNat ≤ 57) ||
  c.toNat = 32 || c.toNat = 45 || c.toNat = 13 || c.toNat = 10

/-- Membership in Go's `[\s\r\n]` class used by `multipleSpacesRegex`
(`\s` in Go RE2 is `[\t\n\x0c\r ]`, code points 9, 10, 12, 13, 32). -/
def isWsChar (c : Char) : Bool :=
  c.toNat = 32 || c.toNat = 9 || c.toNat = 10 || c.toNat = 12 || c.toNat = 13

/-- Embeds `multipleSpacesRegex.ReplaceAllString s "-"`: every maximal run of
whitespace characters becomes a single hyphen.  The flag records whether
the previous character was part of a whitespace run. -/
def collapseWs : Bool → List Char → List Char
  | _, [] => []
  | prevWs, c :: cs =>
    if isWsChar c then
      if prevWs then collapseWs true cs else '-' :: collapseWs true cs
    else
      c :: collapseWs false cs

/-- Hyphen test for `strings.Trim(s, "-")` (code point 45). -/
def isHyphen (c : Char) : Bool := c.toNat = 45

/-- Embeds `strings.Trim(s, "-")` on the character list: drop leading and
trailing hyphens. -/
def trimHyphens (cs : List Char) : List Char :=
  ((cs.dropWhile isHyphen).reverse.dropWhile isHyphen).reverse

/-- Embeds `cleanName` on the underlying character list: strip invalid
characters, collapse whitespace runs to hyphens, trim hyphens, and
lower-case (the input to the lower-casing step is ASCII-only, where Go's
`strings.ToLower` and `Char.toLower` agree). -/
def cleanList (cs : List Char) : List Char :=
  (trimHyphens (collapseWs false (cs.filter isValidChar))).map Char.toLower

/-- Embeds `cleanName` from the source. -/
def cleanName (s : String) : String :=
  ⟨cleanList s.data⟩

/-! ## Parameter binding and validation -/

/-- Embeds `strings.ToLower` as the character-wise ASCII lower-casing map (the
strings it is applied to in the core are ASCII, where Go's Unicode
lowering and `Char.toLower` agree). -/
def strToLower (s : String) : String :=
  ⟨s.data.map Char.toLower⟩

/-- Embeds `strings.HasSuffix(key, "?")`: the key's last character is `?`. -/
def hasOptSuffix (key : String) : Bool :=
  key.data.getLast? == some '?'

/-- Embeds `strings.TrimSuffix(key, "?")`: remove one trailing `?` if present. -/
def trimOptSuffix (key : String) : String :=
  if hasOptSuffix key then key.dropRight 1 else key

/-- Embeds `isNumeric` from the source: signed integer and floating-point kinds
are numeric; the unsigned kinds are commented out in the source and hence
not numeric. -/
def isNumeric : GoValue → Bool
  | .int _ => true
  | .float _ => true
  | _ => false

/-- The `value.(fmt.Stringer)` type assertion: a structured value that
implements `String()` yields that string. -/
def asStringer : GoValue → Option String
  | .obj _ (some s) => some s
  | _ => none

/-- Embeds `fmt.Sprintf("%+v", value)` on the embedded values: scalars render to
their usual text, a structured value renders to a brace-delimited
`field:value` dump in field order. -/
def formatPlusV : GoValue → String
  | .str s => s
  | .int n => toString n
  | .uint n => toString n
  | .float f => f.repr
  | .bool b => if b then "true" else "false"
  | .time t => t.repr
  | .obj fields _ =>
      "\x7b" ++ String.intercalate " " (fields.map (fun p => p.1 ++ ":" ++ p.2)) ++ "\x7d"

/-- One iteration of the binding loop in `parseAndValidateParameters`
(lines 244-270 of the source) for the declared entry `key ↦ declaredType`:
a caller value is taken first (stringified when the declared type is
`object`), then a default, then a required parameter fails and an optional
one is omitted (`none`). -/
def bindEntry (values defaults : ValueMap) (key declaredType : String) :
    Except PromptError (Option (String × GoValue)) :=
  let keyWithoutOptionalSuffix := trimOptSuffix key
  let parameterType := strToLower declaredType
  match List.lookup keyWithoutOptionalSuffix values with
  | some value =>
    match asStringer value with
    | some s =>
      if parameterType == "object" then
        .ok (some (keyWithoutOptionalSuffix, .str s))
      else
        .ok (some (keyWithoutOptionalSuffix, value))
    | none =>
      if parameterType == "object" then
        .ok (some (keyWithoutOptionalSuffix, .str (formatPlusV value)))
      else
        .ok (some (keyWithoutOptionalSuffix, value))
  | none =>
    match List.lookup keyWithoutOptionalSuffix defaults with
    | some defaultValue => .ok (some (keyWithoutOptionalSuffix, defaultValue))
    | none =>
      if hasOptSuffix key then
        .ok none
      else
        .error ⟨"no value provided for parameter " ++ key⟩

/-- The binding loop of `parseAndValidateParameters`: process every
declared parameter, accumulating the produced bindings. -/
def bindLoop (values defaults : ValueMap) : List (String × String) → Except PromptError ValueMap
  | [] => .ok []
  | (key, declaredType) :: rest =>
    match bindEntry values defaults key declaredType with
    | .error e => .error e
    | .ok none => bindLoop values defaults rest
    | .ok (some kv) =>
      match bindLoop values defaults rest with
      | .error e => .error e
      | .ok bs => .ok (kv :: bs)

/-- Embeds `pf.Config.Input.Parameters[key]` in the validation loop: a Go map
read that yields the zero value `""` for a missing key. -/
def lookupType (params : List (String × String)) (k : String) : String :=
  (List.lookup k params).getD ""

/-- One iteration of the validation loop (lines 274-306 of the source):
check a bound value against the type declared for the binding's key,
producing the source's error message on a mismatch.  A declared type
other than the four scalar ones (including the zero value `""`) passes
with no check. -/
def checkBinding (params : List (String × String)) (key : String) (value : GoValue) :
    Except PromptError Unit :=
  match lookupType params key with
  | "string" =>
    match value with
    | .str _ => .ok ()
    | _ => .error ⟨"parameter " ++ key ++ " is not a string"⟩
  | "number" =>
    if isNumeric value then .ok () else .error ⟨"parameter " ++ key ++ " is not a number"⟩
  | "bool" =>
    match value with
    | .bool _ => .ok ()
    | _ => .error ⟨"parameter " ++ key ++ " is not a bool"⟩
  | "datetime" =>
    match value with
    | .time _ => .ok ()
    | _ => .error ⟨"parameter " ++ key ++ " is not a datetime"⟩
  | _ => .ok ()

/-- The validation loop over all produced bindings. -/
def validateLoop (params : List (String × String)) : ValueMap → Except PromptError Unit
  | [] => .ok ()
  | (key, value) :: rest =>
    match checkBinding params key value with
    | .error e => .error e
    | .ok _ => validateLoop params rest

/-- Embeds `parseAndValidateParameters` from the source.  The argument is
`Option ValueMap` so that a `nil` caller map (`none`) is distinguished
from an empty one; the source replaces `nil` with an empty map before
binding. -/
def parseAndValidateParameters (pf : PromptFile) (values? : Option ValueMap) :
    Except PromptError ValueMap :=
  let values := values?.getD []
  match bindLoop values pf.Config.Input.Default pf.Config.Input.Parameters with
  | .error e => .error e
  | .ok bindings =>
    match validateLoop pf.Config.Input.Parameters bindings with
    | .error e => .error e
    | .ok _ => .ok bindings

/-! ## Template rendering

The Liquid engine is an external dependency (`gopkg.in/osteele/liquid.v1`),
not part of this repository.  Modelled from the spec: the rendering
capability "must support at minimum variable substitution … over the
supplied bindings"; `renderTemplate` substitutes every `\x7b\x7b name \x7d\x7d`
occurrence with the binding's textual rendering (an unbound name renders
as empty, as in Liquid's lenient mode), leaving all other text unchanged. -/

/-- The opening brace character. -/
def lbrace : Char := Char.ofNat 123

/-- The closing brace character. -/
def rbrace : Char := Char.ofNat 125

/-- Modelled from the spec: textual rendering of a bound value by the
external template engine. -/
def renderValue : GoValue → String
  | .str s => s
  | .int n => toString n
  | .uint n => toString n
  | .float f => f.repr
  | .bool b => if b then "true" else "false"
  | .time t => t.repr
  | .obj fields st => formatPlusV (.obj fields st)

/-- Modelled from the spec: whitespace trimming of a variable name inside
a substitution tag. -/
def trimName (s : String) : String :=
  ⟨((s.data.dropWhile isWsChar).reverse.dropWhile isWsChar).reverse⟩

/-- Split a character list at the first closing `\x7d\x7d`, returning the
text before it and the remainder after it. -/
def splitAtClose : List Char → Option (List Char × List Char)
  | [] => none
  | [_] => none
  | c :: c2 :: cs =>
    if c = rbrace && c2 = rbrace then some ([], cs)
    else
      match splitAtClose (c2 :: cs) with
      | some (v, r) => some (c :: v, r)
      | none => none

/-- Modelled from the spec: render the text of a variable reference from
the bindings (empty for an unbound name). -/
def renderBinding (bindings : ValueMap) (name : String) : List Char :=
  match List.lookup name bindings with
  | some v => (renderValue v).data
  | none => []

/-- Modelled from the spec: fuel-indexed substitution pass over the
template text. -/
def renderAux (bindings : ValueMap) : Nat → List Char → List Char
  | 0, cs => cs
  | _ + 1, [] => []
  | fuel + 1, c :: cs =>
    if c = lbrace then
      match cs with
      | c2 :: cs2 =>
        if c2 = lbrace then
          match splitAtClose cs2 with
          | some (v, rest) =>
            renderBinding bindings (trimName (String.mk v)) ++ renderAux bindings fuel rest
          | none => c :: c2 :: renderAux bindings fuel cs2
        else
          c :: renderAux bindings fuel cs
      | [] => [c]
    else
      c :: renderAux bindings fuel cs

/-- Modelled from the spec: the external rendering capability
`engine.ParseAndRenderString(template, bindings)`. -/
def renderTemplate (template : String) (bindings : ValueMap) : Except PromptError String :=
  .ok ⟨renderAux bindings template.data.length template.data⟩

/-! ## Prompt generation -/

/-- Does `pat` occur as a contiguous subsequence of the character list? -/
def containsSeq (pat : List Char) : List Char → Bool
  | [] => pat.isEmpty
  | c :: cs => pat.isPrefixOf (c :: cs) || containsSeq pat cs

/-- Embeds `strings.Contains(s, pat)` for an ASCII pattern (an ASCII byte
pattern occurs in the UTF-8 bytes exactly when it occurs in the character
sequence). -/
def containsSubstring (s pat : String) : Bool :=
  containsSeq pat.data s.data

/-- Embeds `generatePrompt` from the source: bind and validate the parameters,
then render the template; a rendering failure is wrapped. -/
def generatePrompt (pf : PromptFile) (template : String) (values? : Option ValueMap) :
    Except PromptError String :=
  match parseAndValidateParameters pf values? with
  | .error e => .error e
  | .ok bindings =>
    match renderTemplate template bindings with
    | .ok prompt => .ok prompt
    | .error e => .error ⟨"failed to render prompt: " ++ e.Message⟩

/-- The fixed instruction appended for JSON output. -/
def promptSuffix : String := "Please provide the response in JSON"

/-- Embeds `GetSystemPrompt` from the source: when the output format is `Json`
and neither raw template mentions `json` case-insensitively, append the
fixed instruction to the system template (verbatim when it is empty,
space-separated otherwise) before rendering. -/
def GetSystemPrompt (pf : PromptFile) (values? : Option ValueMap) : Except PromptError String :=
  let systemPrompt :=
    if pf.Config.OutputFormat == OutputFormat.Json
        && !containsSubstring (strToLower pf.Prompts.System) "json"
        && !containsSubstring (strToLower pf.Prompts.User) "json" then
      if pf.Prompts.System.length == 0 then promptSuffix
      else pf.Prompts.System ++ " " ++ promptSuffix
    else pf.Prompts.System
  generatePrompt pf systemPrompt values?

/-- Embeds `GetUserPrompt` from the source. -/
def GetUserPrompt (pf : PromptFile) (values? : Option ValueMap) : Except PromptError String :=
  generatePrompt pf pf.Prompts.User values?

/-! ## Document construction and serialization

`NewPromptFile` consumes raw bytes via `yaml.Unmarshal`; `Serialize`
produces bytes via `yaml.Marshal`.  The byte layer belongs to the external
`yaml.v3` library; both are embedded at the level of the decoded document
tree `YamlDoc` (absent fields are `none`, and decoding fills in Go zero
values exactly as `yaml.Unmarshal` leaves unset struct fields). -/

/-- The decoded YAML document tree for a prompt file: each field of the
wire format, `none` when absent. -/
structure YamlDoc where
  name : Option String
  model : Option String
  temperature : Option GoFloat
  maxTokens : Option Int
  outputFormat : Option OutputFormat
  parameters : Option (List (String × String))
  defaults : Option ValueMap
  output : Option OutputFormat
  system : Option String
  user : Option String
  fewShots : Option (List FewShotPromptPair)
deriving Repr, DecidableEq

/-- Embeds `yaml.Unmarshal` of a document tree into the `PromptFile` struct:
absent fields keep their Go zero values (`""`, `nil`, `Text`). -/
def decodeYamlDoc (d : YamlDoc) : PromptFile :=
  { Name := d.name.getD ""
    Model := d.model.getD ""
    Config :=
      { Temperature := d.temperature
        MaxTokens := d.maxTokens
        OutputFormat := d.outputFormat.getD OutputFormat.Text
        Input :=
          { Parameters := d.parameters.getD []
            Default := d.defaults.getD [] }
        Output := d.output.map (fun f => ⟨f⟩) }
    Prompts :=
      { System := d.system.getD ""
        User := d.user.getD "" }
    FewShots := d.fewShots.getD [] }

/-- The parameter-type vocabulary check of `NewPromptFile` (lines
167-173): the first declared parameter whose type is not in
`validDataTypes`, if any. -/
def firstInvalidParam : List (String × String) → Option (String × String)
  | [] => none
  | (key, paramType) :: rest =>
    if validDataTypes.contains paramType then firstInvalidParam rest
    else some (key, paramType)

/-- Embeds `NewPromptFile` from the source, over the decoded document tree:
reject an empty user template, seed an empty name from the fallback,
sanitize the name and reject an empty result, reject invalid parameter
types, and reconcile the two output-format locations (synthesize the
nested config from the legacy field when absent, otherwise the nested
value overwrites the legacy field). -/
def NewPromptFile (name : String) (data : YamlDoc) : Except PromptError PromptFile :=
  let promptFile := decodeYamlDoc data
  if promptFile.Prompts.User.length == 0 then
    .error ⟨"no user prompt template was provided in the prompt file"⟩
  else
    let pf1 := if promptFile.Name.length == 0 then { promptFile with Name := name } else promptFile
    let pf2 := { pf1 with Name := cleanName pf1.Name }
    if pf2.Name.length == 0 then
      .error ⟨"the prompt file name, once cleaned, is empty"⟩
    else
      match firstInvalidParam pf2.Config.Input.Parameters with
      | some (key, paramType) =>
        .error ⟨"invalid data type for parameter " ++ key ++ ": " ++ paramType⟩
      | none =>
        let outSchema := pf2.Config.Output.getD ⟨pf2.Config.OutputFormat⟩
        .ok { pf2 with
                Config := { pf2.Config with
                              OutputFormat := outSchema.Format
                              Output := some outSchema } }

/-- Embeds `Serialize` from the source, producing the document tree that
`yaml.Marshal` emits for the struct: fields tagged `omitempty` are absent
when empty/nil, the rest are always present. -/
def Serialize (pf : PromptFile) : YamlDoc :=
  { name := if pf.Name.length == 0 then none else some pf.Name
    model := if pf.Model.length == 0 then none else some pf.Model
    temperature := pf.Config.Temperature
    maxTokens := pf.Config.MaxTokens
    outputFormat := some pf.Config.OutputFormat
    parameters := some pf.Config.Input.Parameters
    defaults := if pf.Config.Input.Default.isEmpty then none else some pf.Config.Input.Default
    output := pf.Config.Output.map OutputSchema.Format
    system := if pf.Prompts.System.length == 0 then none else some pf.Prompts.System
    user := some pf.Prompts.User
    fewShots := if pf.FewShots.isEmpty then none else some pf.FewShots }

/-! ## Concrete documents used to instantiate the properties

These mirror the repository's own test data (`test-data/basic.prompt` and
friends). -/

/-- The document decoded from `test-data/basic.prompt`. -/
def pfBasic : PromptFile :=
  { Name := "basic"
    Model := "claude-3-5-sonnet-latest"
    Config :=
      { Temperature := some ⟨"0.9"⟩
        MaxTokens := some 500
        OutputFormat := .Text
        Input :=
          { Parameters := [("country", "string"), ("style?", "string")]
            Default := [("country", .str "Malta")] }
        Output := some ⟨.Text⟩ }
    Prompts :=
      { System := "You are a helpful AI assistant that enjoys making penguin related puns."
        User := "I am looking at going on holiday to \x7b\x7b country \x7d\x7d and would like to know more about it, what can you tell me?" }
    FewShots := [] }

/-- A document with a single required `topic` parameter and no default. -/
def pfTopic : PromptFile :=
  { Name := "topic-example"
    Model := ""
    Config :=
      { Temperature := none
        MaxTokens := none
        OutputFormat := .Text
        Input := { Parameters := [("topic", "string")], Default := [] }
        Output := some ⟨.Text⟩ }
    Prompts := { System := "", User := "Explain \x7b\x7b topic \x7d\x7d" }
    FewShots := [] }

/-- A JSON-output document with an empty system template, whose user
template does not mention "json". -/
def pfJsonEx : PromptFile :=
  { Name := "json-example"
    Model := ""
    Config :=
      { Temperature := none
        MaxTokens := none
        OutputFormat := .Json
        Input := { Parameters := [], Default := [] }
        Output := some ⟨.Json⟩ }
    Prompts := { System := "", User := "Tell me a joke" }
    FewShots := [] }

/-- A document whose only parameter is optional and declared `number`. -/
def pfOptNum : PromptFile :=
  { Name := "opt-num"
    Model := ""
    Config :=
      { Temperature := none
        MaxTokens := none
        OutputFormat := .Text
        Input := { Parameters := [("style?", "number")], Default := [] }
        Output := some ⟨.Text⟩ }
    Prompts := { System := "", User := "Hello \x7b\x7b style \x7d\x7d" }
    FewShots := [] }

/-- A document whose only parameter is required and declared `number`. -/
def pfReqNum : PromptFile :=
  { Name := "req-num"
    Model := ""
    Config :=
      { Temperature := none
        MaxTokens := none
        OutputFormat := .Text
        Input := { Parameters := [("age", "number")], Default := [] }
        Output := some ⟨.Text⟩ }
    Prompts := { System := "", User := "Age \x7b\x7b age \x7d\x7d" }
    FewShots := [] }

/-- A document with a required `topic` and optional `style` parameter. -/
def pfStyle : PromptFile :=
  { Name := "style-example"
    Model := ""
    Config :=
      { Temperature := none
        MaxTokens := none
        OutputFormat := .Text
        Input :=
          { Parameters := [("topic", "string"), ("style?", "string")]
            Default := [] }
        Output := some ⟨.Text⟩ }
    Prompts := { System := "", User := "Explain \x7b\x7b topic \x7d\x7d \x7b\x7b style \x7d\x7d" }
    FewShots := [] }

/-- A document with a single required `object` parameter. -/
def pfObj : PromptFile :=
  { Name := "obj-example"
    Model := ""
    Config :=
      { Temperature := none
        MaxTokens := none
        OutputFormat := .Text
        Input := { Parameters := [("param", "object")], Default := [] }
        Output := some ⟨.Text⟩ }
    Prompts := { System := "", User := "Value: \x7b\x7b param \x7d\x7d" }
    FewShots := [] }

/-! ## Helper lemmas about the binder -/

/-- A binding produced by `bindEntry` is keyed by the un-suffixed
declared key. -/
theorem bindEntry_key {values defaults : ValueMap} {key ty k : String} {x : GoValue}
    (h : bindEntry values defaults key ty = .ok (some (k, x))) :
    k = trimOptSuffix key := by
  simp only [bindEntry] at h
  repeat' split at h
  all_goals simp_all

/-- The function `bindEntry` fails only for a required key with no caller value and no
default, and then with the source's message naming the declared key. -/
theorem bindEntry_error {values defaults : ValueMap} {key ty : String} {e : PromptError}
    (h : bindEntry values defaults key ty = .error e) :
    e = ⟨"no value provided for parameter " ++ key⟩ ∧
      hasOptSuffix key = false ∧
      List.lookup (trimOptSuffix key) values = none ∧
      List.lookup (trimOptSuffix key) defaults = none := by
  cases hv : List.lookup (trimOptSuffix key) values with
  | some v =>
    cases hs : asStringer v <;> simp [bindEntry, hv, hs] at h <;> split at h <;> simp at h
  | none =>
    cases hd : List.lookup (trimOptSuffix key) defaults with
    | some d => simp [bindEntry, hv, hd] at h
    | none =>
      by_cases hq : hasOptSuffix key = true
      · simp [bindEntry, hv, hd, hq] at h
      · rw [Bool.not_eq_true] at hq
        simp only [bindEntry, hv, hd, hq] at h
        simp only [Bool.false_eq_true, if_false] at h
        exact ⟨(Except.error.inj h).symm, hq, rfl, rfl⟩

/-- The function `bindEntry` on a required key with no caller value and no default
produces exactly the source's missing-parameter error. -/
theorem bindEntry_missing {values defaults : ValueMap} {key ty : String}
    (hreq : hasOptSuffix key = false)
    (hv : List.lookup (trimOptSuffix key) values = none)
    (hd : List.lookup (trimOptSuffix key) defaults = none) :
    bindEntry values defaults key ty = .error ⟨"no value provided for parameter " ++ key⟩ := by
  simp [bindEntry, hv, hd, hreq]

/-- The function `bindEntry` on a key with no caller value but a default binds the
default. -/
theorem bindEntry_default (values defaults : ValueMap) (key ty : String) {d : GoValue}
    (hv : List.lookup (trimOptSuffix key) values = none)
    (hd : List.lookup (trimOptSuffix key) defaults = some d) :
    bindEntry values defaults key ty = .ok (some (trimOptSuffix key, d)) := by
  simp only [bindEntry, hv, hd]

/-- When the whole binding loop succeeds, every binding it produced came
from some declared parameter, keyed by its un-suffixed key. -/
theorem bindLoop_mem {values defaults : ValueMap} {params : List (String × String)}
    {b : ValueMap} (h : bindLoop values defaults params = .ok b) :
    ∀ kv ∈ b, ∃ e ∈ params, trimOptSuffix e.1 = kv.1 := by
  induction params generalizing b with
  | nil =>
    simp only [bindLoop] at h
    cases h
    simp
  | cons e0 rest ih =>
    obtain ⟨key, ty⟩ := e0
    simp only [bindLoop] at h
    split at h
    · simp at h
    · rename_i hentry
      intro kv hkv
      obtain ⟨e, he, ht⟩ := ih h kv hkv
      exact ⟨e, List.mem_cons_of_mem _ he, ht⟩
    · rename_i kv0 hentry
      obtain ⟨k0, x0⟩ := kv0
      split at h
      · simp at h
      · rename_i bs hrest
        cases h
        intro kv hkv
        rcases List.mem_cons.mp hkv with rfl | hkv
        · exact ⟨(key, ty), List.mem_cons_self _ _, (bindEntry_key hentry).symm⟩
        · obtain ⟨e, he, ht⟩ := ih hrest kv hkv
          exact ⟨e, List.mem_cons_of_mem _ he, ht⟩

/-- Looking up the head key of an association list. -/
theorem lookup_cons_self {k : String} {x : GoValue} {l : ValueMap} :
    List.lookup k ((k, x) :: l) = some x := by
  simp [List.lookup]

/-- Lookup skips an entry with a different key. -/
theorem lookup_cons_ne {k k0 : String} {x : GoValue} {l : ValueMap} (h : k ≠ k0) :
    List.lookup k ((k0, x) :: l) = List.lookup k l := by
  simp [List.lookup, beq_eq_false_iff_ne.mpr h]

/-- If no caller value and no default exist for the lookup key `k`, a
successful binding loop leaves `k` unbound (it is not bound to a null or
empty value: it is simply absent). -/
theorem bindLoop_lookup_none {values defaults : ValueMap} {params : List (String × String)}
    {b : ValueMap} (h : bindLoop values defaults params = .ok b) {k : String}
    (hv : List.lookup k values = none) (hd : List.lookup k defaults = none) :
    List.lookup k b = none := by
  induction params generalizing b with
  | nil =>
    simp only [bindLoop] at h
    cases h
    rfl
  | cons e0 rest ih =>
    obtain ⟨key, ty⟩ := e0
    simp only [bindLoop] at h
    split at h
    · simp at h
    · exact ih h
    · rename_i kv0 hentry
      obtain ⟨k0, x0⟩ := kv0
      split at h
      · simp at h
      · rename_i bs hrest
        cases h
        by_cases hk : k = k0
        · subst hk
          have hkey := bindEntry_key hentry
          rw [hkey] at hv hd
          simp only [bindEntry, hv, hd] at hentry
          split at hentry <;> simp at hentry
        · rw [lookup_cons_ne hk]
          exact ih hrest

/-- If every required (un-suffixed) declared key has a caller value or a
default, the binding loop succeeds. -/
theorem bindLoop_ok_of_required {values defaults : ValueMap} {params : List (String × String)}
    (hreq : ∀ key ty, (key, ty) ∈ params → hasOptSuffix key = false →
      List.lookup (trimOptSuffix key) values = none →
      List.lookup (trimOptSuffix key) defaults ≠ none) :
    ∃ b, bindLoop values defaults params = .ok b := by
  induction params with
  | nil => exact ⟨[], rfl⟩
  | cons e0 rest ih =>
    obtain ⟨key, ty⟩ := e0
    obtain ⟨b', hb'⟩ := ih (fun k t hm => hreq k t (List.mem_cons_of_mem _ hm))
    have hentry : ∃ r, bindEntry values defaults key ty = .ok r := by
      cases he : bindEntry values defaults key ty with
      | ok r => exact ⟨r, rfl⟩
      | error e =>
        obtain ⟨-, hq, hv, hd⟩ := bindEntry_error he
        exact absurd hd (hreq key ty (List.mem_cons_self _ _) hq hv)
    obtain ⟨r, hr⟩ := hentry
    cases r with
    | none => exact ⟨b', by simp only [bindLoop, hr]; exact hb'⟩
    | some kv => exact ⟨kv :: b', by simp only [bindLoop, hr, hb']⟩

/-- If some declared key is required and has neither a caller value nor a
default, the binding loop fails, and it fails with the source's
missing-parameter message naming (exactly as declared) a key that is
itself required and missing.  If moreover that key is the only such one,
the message names it. -/
theorem bindLoop_error_of_missing {values defaults : ValueMap} {params : List (String × String)}
    {key ty : String} (hmem : (key, ty) ∈ params) (hreq : hasOptSuffix key = false)
    (hv : List.lookup (trimOptSuffix key) values = none)
    (hd : List.lookup (trimOptSuffix key) defaults = none) :
    ∃ key', (∃ ty', (key', ty') ∈ params) ∧ hasOptSuffix key' = false ∧
      List.lookup (trimOptSuffix key') values = none ∧
      List.lookup (trimOptSuffix key') defaults = none ∧
      bindLoop values defaults params = .error ⟨"no value provided for parameter " ++ key'⟩ := by
  induction params with
  | nil => exact absurd hmem (List.not_mem_nil _)
  | cons e0 rest ih =>
    obtain ⟨k0, t0⟩ := e0
    cases he : bindEntry values defaults k0 t0 with
    | error e =>
      obtain ⟨hmsg, hq0, hv0, hd0⟩ := bindEntry_error he
      subst hmsg
      exact ⟨k0, ⟨t0, List.mem_cons_self _ _⟩, hq0, hv0, hd0, by simp only [bindLoop, he]⟩
    | ok r =>
      have hmem' : (key, ty) ∈ rest := by
        rcases List.mem_cons.mp hmem with heq | h
        · obtain ⟨rfl, rfl⟩ := Prod.mk.injEq .. ▸ heq
          rw [bindEntry_missing hreq hv hd] at he
          cases he
        · exact h
      obtain ⟨key', hk'mem, hk'q, hk'v, hk'd, hloop⟩ := ih hmem'
      refine ⟨key', ⟨hk'mem.choose, List.mem_cons_of_mem _ hk'mem.choose_spec⟩,
        hk'q, hk'v, hk'd, ?_⟩
      cases r with
      | none => simp only [bindLoop, he]; exact hloop
      | some kv => simp only [bindLoop, he, hloop]

/-- If a declared key's own entry binds `x`, and every declared entry
sharing the same un-suffixed key binds the same `x` (or is omitted), a
successful binding loop resolves the un-suffixed key to `x`. -/
theorem bindLoop_lookup_first {values defaults : ValueMap} {params : List (String × String)}
    {b : ValueMap} (h : bindLoop values defaults params = .ok b) {key ty : String} {x : GoValue}
    (hmem : (key, ty) ∈ params)
    (hx : bindEntry values defaults key ty = .ok (some (trimOptSuffix key, x)))
    (hall : ∀ k' t', (k', t') ∈ params → trimOptSuffix k' = trimOptSuffix key →
      bindEntry values defaults k' t' = .ok (some (trimOptSuffix key, x)) ∨
      bindEntry values defaults k' t' = .ok none) :
    List.lookup (trimOptSuffix key) b = some x := by
  induction params generalizing b with
  | nil => exact absurd hmem (List.not_mem_nil _)
  | cons e0 rest ih =>
    obtain ⟨k0, t0⟩ := e0
    have hall' : ∀ k' t', (k', t') ∈ rest → trimOptSuffix k' = trimOptSuffix key →
        bindEntry values defaults k' t' = .ok (some (trimOptSuffix key, x)) ∨
        bindEntry values defaults k' t' = .ok none :=
      fun k' t' hm => hall k' t' (List.mem_cons_of_mem _ hm)
    simp only [bindLoop] at h
    split at h
    · simp at h
    · rename_i hentry
      have hmem' : (key, ty) ∈ rest := by
        rcases List.mem_cons.mp hmem with heq | hm
        · obtain ⟨rfl, rfl⟩ := Prod.mk.injEq .. ▸ heq
          rw [hx] at hentry
          cases hentry
        · exact hm
      exact ih h hmem' hall'
    · rename_i kv0 hentry
      obtain ⟨k0', x0⟩ := kv0
      split at h
      · simp at h
      · rename_i bs hrest
        cases h
        by_cases htr : trimOptSuffix k0 = trimOptSuffix key
        · rcases hall k0 t0 (List.mem_cons_self _ _) htr with hsame | hnone
          · rw [hsame] at hentry
            obtain ⟨rfl, rfl⟩ := Prod.mk.injEq .. ▸ Option.some.inj (Except.ok.inj hentry)
            exact lookup_cons_self
          · rw [hnone] at hentry
            cases hentry
        · have hk0' : k0' = trimOptSuffix k0 := bindEntry_key hentry
          have hne : trimOptSuffix key ≠ k0' := by rw [hk0']; exact fun hh => htr hh.symm
          rw [lookup_cons_ne hne]
          have hmem' : (key, ty) ∈ rest := by
            rcases List.mem_cons.mp hmem with heq | hm
            · obtain ⟨rfl, rfl⟩ := Prod.mk.injEq .. ▸ heq
              exact absurd rfl htr
            · exact hm
          exact ih hrest hmem' hall'

/-- A successful `parseAndValidateParameters` result is exactly a
successful binding-loop result (the validator does not alter bindings). -/
theorem parse_ok_bindLoop {pf : PromptFile} {values? : Option ValueMap} {b : ValueMap}
    (h : parseAndValidateParameters pf values? = .ok b) :
    bindLoop (values?.getD []) pf.Config.Input.Default pf.Config.Input.Parameters = .ok b := by
  simp only [parseAndValidateParameters] at h
  split at h
  · simp at h
  · rename_i bindings hloop
    split at h
    · simp at h
    · cases h
      exact hloop

/-- The function `bindEntry` consults the caller values only at the un-suffixed key:
prepending an entry with a different key changes nothing. -/
theorem bindEntry_extend {values defaults : ValueMap} {j : String} {w : GoValue}
    {key ty : String} (h : trimOptSuffix key ≠ j) :
    bindEntry ((j, w) :: values) defaults key ty = bindEntry values defaults key ty := by
  simp only [bindEntry, lookup_cons_ne h]

/-- Prepending a caller entry whose key matches no declared un-suffixed
key leaves the whole binding loop unchanged. -/
theorem bindLoop_extend {values defaults : ValueMap} {j : String} {w : GoValue}
    {params : List (String × String)}
    (h : ∀ key ty, (key, ty) ∈ params → trimOptSuffix key ≠ j) :
    bindLoop ((j, w) :: values) defaults params = bindLoop values defaults params := by
  induction params with
  | nil => rfl
  | cons e0 rest ih =>
    obtain ⟨k0, t0⟩ := e0
    simp only [bindLoop, bindEntry_extend (h k0 t0 (List.mem_cons_self _ _)),
      ih (fun k t hm => h k t (List.mem_cons_of_mem _ hm))]

/-- Prepending an undeclared caller entry leaves parameter parsing and
validation unchanged. -/
theorem parse_extend {pf : PromptFile} {values : ValueMap} {j : String} {w : GoValue}
    (h : ∀ key ty, (key, ty) ∈ pf.Config.Input.Parameters → trimOptSuffix key ≠ j) :
    parseAndValidateParameters pf (some ((j, w) :: values)) =
      parseAndValidateParameters pf (some values) := by
  simp only [parseAndValidateParameters, Option.getD_some]
  rw [bindLoop_extend h]

/-! ## Helper lemmas about name sanitization -/

/-- Applying `Char.ofNat` to a valid code point recovers the code point. -/
theorem toNat_ofNat_valid {n : Nat} (h : n.isValidChar) : (Char.ofNat n).toNat = n := by
  simp [Char.ofNat, h, Char.ofNatAux, Char.toNat, UInt32.toNat, UInt32.ofNatCore]

/-- The function `Char.toLower` either shifts an uppercase ASCII letter down by 32 or
leaves the character unchanged. -/
theorem toLower_spec (c : Char) :
    (65 ≤ c.toNat ∧ c.toNat ≤ 90 ∧ (Char.toLower c).toNat = c.toNat + 32) ∨
    (¬(65 ≤ c.toNat ∧ c.toNat ≤ 90) ∧ Char.toLower c = c) := by
  by_cases h : 65 ≤ c.toNat ∧ c.toNat ≤ 90
  · have hv : (c.toNat + 32).isValidChar := Or.inl (by omega)
    refine Or.inl ⟨h.1, h.2, ?_⟩
    simp only [Char.toLower]
    rw [if_pos ⟨h.1, h.2⟩]
    exact toNat_ofNat_valid hv
  · refine Or.inr ⟨h, ?_⟩
    simp only [Char.toLower]
    rw [if_neg h]

/-- On a valid non-whitespace character, lower-casing preserves validity
and non-whitespace, is idempotent, and preserves (non-)hyphenness. -/
theorem toLower_preserves {c : Char} (hval : isValidChar c = true) (hws : isWsChar c = false) :
    isValidChar c.toLower = true ∧ isWsChar c.toLower = false ∧
      c.toLower.toLower = c.toLower ∧ (isHyphen c = false → isHyphen c.toLower = false) ∧
      (isHyphen c = true → isHyphen c.toLower = true) := by
  simp only [isValidChar, isWsChar, isHyphen, Bool.or_eq_true, Bool.and_eq_true,
    decide_eq_true_eq, Bool.or_eq_false_iff, Bool.and_eq_false_iff, decide_eq_false_iff_not] at *
  rcases toLower_spec c with ⟨h1, h2, ht⟩ | ⟨hnu, heq⟩
  · have hidem : c.toLower.toLower = c.toLower := by
      rcases toLower_spec c.toLower with ⟨g1, g2, _⟩ | ⟨_, geq⟩
      · omega
      · exact geq
    refine ⟨by omega, by omega, hidem, fun _ => by omega, fun h => absurd h (by omega)⟩
  · rw [heq]
    exact ⟨hval, hws, heq, fun h => h, fun h => h⟩

/-- Every character emitted by `collapseWs` is a hyphen or a
non-whitespace character of the input. -/
theorem mem_collapseWs {cs : List Char} {b : Bool} {c : Char} (h : c ∈ collapseWs b cs) :
    isHyphen c = true ∨ (c ∈ cs ∧ isWsChar c = false) := by
  induction cs generalizing b with
  | nil => simp [collapseWs] at h
  | cons c0 rest ih =>
    simp only [collapseWs] at h
    by_cases hws : isWsChar c0 = true
    · rw [if_pos hws] at h
      cases b with
      | true =>
        rcases ih h with hh | ⟨hm, hw⟩
        · exact Or.inl hh
        · exact Or.inr ⟨List.mem_cons_of_mem _ hm, hw⟩
      | false =>
        simp only [if_neg (by simp : ¬(false = true)), List.mem_cons] at h
        rcases h with rfl | h
        · exact Or.inl (by decide)
        · rcases ih h with hh | ⟨hm, hw⟩
          · exact Or.inl hh
          · exact Or.inr ⟨List.mem_cons_of_mem _ hm, hw⟩
    · rw [if_neg hws] at h
      rcases List.mem_cons.mp h with rfl | h
      · exact Or.inr ⟨List.mem_cons_self _ _, Bool.not_eq_true _ ▸ hws⟩
      · rcases ih h with hh | ⟨hm, hw⟩
        · exact Or.inl hh
        · exact Or.inr ⟨List.mem_cons_of_mem _ hm, hw⟩

/-- The function `collapseWs` is the identity on whitespace-free input. -/
theorem collapseWs_eq_self {cs : List Char} (h : ∀ c ∈ cs, isWsChar c = false) :
    ∀ b, collapseWs b cs = cs := by
  induction cs with
  | nil => intro b; rfl
  | cons c0 rest ih =>
    intro b
    simp only [collapseWs]
    rw [if_neg (by simp [h c0 (List.mem_cons_self _ _)])]
    rw [ih (fun c hc => h c (List.mem_cons_of_mem _ hc)) false]

/-- The head surviving `dropWhile` does not satisfy the predicate. -/
theorem head?_dropWhile {p : Char → Bool} {l : List Char} {c : Char}
    (h : (l.dropWhile p).head? = some c) : p c = false := by
  induction l with
  | nil => simp [List.dropWhile] at h
  | cons c0 rest ih =>
    simp only [List.dropWhile] at h
    by_cases hp : p c0 = true
    · simp only [hp] at h
      exact ih h
    · rw [Bool.not_eq_true] at hp
      simp only [hp] at h
      cases h
      exact hp

/-- The function `dropWhile` keeps the last element when its result is non-empty. -/
theorem getLast?_dropWhile {p : Char → Bool} {l : List Char}
    (h : l.dropWhile p ≠ []) : (l.dropWhile p).getLast? = l.getLast? := by
  induction l with
  | nil => simp [List.dropWhile] at h
  | cons c0 rest ih =>
    simp only [List.dropWhile] at h ⊢
    by_cases hp : p c0 = true
    · simp only [hp] at h ⊢
      rw [ih h]
      cases rest with
      | nil => simp [List.dropWhile] at h
      | cons c1 rest' => rfl
    · rw [Bool.not_eq_true] at hp
      simp only [hp]

/-- The function `dropWhile` is the identity when the head does not satisfy the
predicate. -/
theorem dropWhile_eq_self {p : Char → Bool} {l : List Char}
    (h : ∀ c, l.head? = some c → p c = false) : l.dropWhile p = l := by
  cases l with
  | nil => rfl
  | cons c0 rest =>
    simp only [List.dropWhile]
    simp only [h c0 rfl]

/-- Characters of the hyphen-trimmed list come from the input. -/
theorem mem_trimHyphens {l : List Char} {c : Char} (h : c ∈ trimHyphens l) : c ∈ l := by
  simp only [trimHyphens, List.mem_reverse] at h
  have h1 := (List.dropWhile_sublist isHyphen).mem h
  rw [List.mem_reverse] at h1
  exact (List.dropWhile_sublist isHyphen).mem h1

/-- The first character of the hyphen-trimmed list is not a hyphen. -/
theorem head?_trimHyphens {l : List Char} {c : Char}
    (h : (trimHyphens l).head? = some c) : isHyphen c = false := by
  simp only [trimHyphens] at h
  rw [List.head?_reverse] at h
  have hne : (List.dropWhile isHyphen l).reverse.dropWhile isHyphen ≠ [] := by
    intro hnil
    rw [hnil] at h
    cases h
  rw [getLast?_dropWhile hne, List.getLast?_reverse] at h
  exact head?_dropWhile h

/-- The last character of the hyphen-trimmed list is not a hyphen. -/
theorem getLast?_trimHyphens {l : List Char} {c : Char}
    (h : (trimHyphens l).getLast? = some c) : isHyphen c = false := by
  simp only [trimHyphens] at h
  rw [List.getLast?_reverse] at h
  exact head?_dropWhile h

/-- The function `trimHyphens` is the identity when neither end is a hyphen. -/
theorem trimHyphens_eq_self {l : List Char}
    (hh : ∀ c, l.head? = some c → isHyphen c = false)
    (hl : ∀ c, l.getLast? = some c → isHyphen c = false) : trimHyphens l = l := by
  simp only [trimHyphens]
  rw [dropWhile_eq_self hh]
  rw [dropWhile_eq_self (fun c hc => hl c (by rwa [List.head?_reverse] at hc))]
  exact List.reverse_reverse l

/-- The element reported by `getLast?` is a member of the list. -/
theorem mem_of_getLast? {l : List Char} {c : Char} (h : l.getLast? = some c) : c ∈ l := by
  induction l with
  | nil => cases h
  | cons a as ih =>
    cases as with
    | nil =>
      simp only [List.getLast?_singleton] at h
      cases h
      exact List.mem_cons_self _ _
    | cons b bs =>
      rw [List.getLast?_cons_cons] at h
      exact List.mem_cons_of_mem _ (ih h)

/-- Every character of a sanitized name is valid, non-whitespace, and
already lower-case. -/
theorem cleanList_mem {x : List Char} {c : Char} (h : c ∈ cleanList x) :
    isValidChar c = true ∧ isWsChar c = false ∧ Char.toLower c = c := by
  simp only [cleanList] at h
  rcases List.mem_map.mp h with ⟨c', hc', rfl⟩
  have hmem := mem_trimHyphens hc'
  have hvw : isValidChar c' = true ∧ isWsChar c' = false := by
    rcases mem_collapseWs hmem with hhy | ⟨hmf, hws⟩
    · have : c'.toNat = 45 := by simpa [isHyphen] using hhy
      constructor <;> simp [isValidChar, isWsChar, this]
    · exact ⟨(List.mem_filter.mp hmf).2, hws⟩
  obtain ⟨g1, g2, g3, -⟩ := toLower_preserves hvw.1 hvw.2
  exact ⟨g1, g2, g3⟩

/-- A sanitized name neither starts nor ends with a hyphen. -/
theorem cleanList_ends (x : List Char) :
    (∀ c, (cleanList x).head? = some c → isHyphen c = false) ∧
    (∀ c, (cleanList x).getLast? = some c → isHyphen c = false) := by
  have hstep : ∀ c', c' ∈ trimHyphens (collapseWs false (x.filter isValidChar)) →
      isHyphen c' = false → isHyphen c'.toLower = false := by
    intro c' hmem hhy
    have hvw : isValidChar c' = true ∧ isWsChar c' = false := by
      rcases mem_collapseWs (mem_trimHyphens hmem) with hh | ⟨hmf, hws⟩
      · rw [hh] at hhy; cases hhy
      · exact ⟨(List.mem_filter.mp hmf).2, hws⟩
    exact (toLower_preserves hvw.1 hvw.2).2.2.2.1 hhy
  constructor
  · intro c hc
    simp only [cleanList, List.head?_map] at hc
    cases ht : (trimHyphens (collapseWs false (x.filter isValidChar))).head? with
    | none => rw [ht] at hc; cases hc
    | some c' =>
      rw [ht] at hc
      cases hc
      have hmem : c' ∈ trimHyphens (collapseWs false (x.filter isValidChar)) := by
        cases hl : trimHyphens (collapseWs false (x.filter isValidChar)) with
        | nil => rw [hl] at ht; cases ht
        | cons a as =>
          rw [hl] at ht
          cases ht
          exact List.mem_cons_self _ _
      exact hstep c' hmem (head?_trimHyphens ht)
  · intro c hc
    simp only [cleanList, List.getLast?_map] at hc
    cases ht : (trimHyphens (collapseWs false (x.filter isValidChar))).getLast? with
    | none => rw [ht] at hc; cases hc
    | some c' =>
      rw [ht] at hc
      cases hc
      have hmem : c' ∈ trimHyphens (collapseWs false (x.filter isValidChar)) :=
        mem_of_getLast? ht
      exact hstep c' hmem (getLast?_trimHyphens ht)

/-- Sanitization of a character list is idempotent. -/
theorem cleanList_idem (x : List Char) : cleanList (cleanList x) = cleanList x := by
  have hfil : (cleanList x).filter isValidChar = cleanList x :=
    List.filter_eq_self.mpr (fun c hc => (cleanList_mem hc).1)
  have hcol : collapseWs false (cleanList x) = cleanList x :=
    collapseWs_eq_self (fun c hc => (cleanList_mem hc).2.1) false
  have htrim : trimHyphens (cleanList x) = cleanList x :=
    trimHyphens_eq_self (cleanList_ends x).1 (cleanList_ends x).2
  have hmap : (cleanList x).map Char.toLower = cleanList x := by
    rw [List.map_congr_left (fun c hc => (cleanList_mem hc).2.2)]
    exact List.map_id _
  conv_lhs => rw [cleanList]
  rw [hfil, hcol, htrim, hmap]

/-- Sanitizing a name is idempotent. -/
theorem cleanName_idem (s : String) : cleanName (cleanName s) = cleanName s := by
  show String.mk (cleanList (cleanList s.data)) = String.mk (cleanList s.data)
  rw [cleanList_idem]

/-! ## Helper lemmas about prompt generation and construction -/

/-- A required (un-suffixed) key is its own lookup key. -/
theorem trimOptSuffix_required {key : String} (h : hasOptSuffix key = false) :
    trimOptSuffix key = key := by
  simp [trimOptSuffix, h]

/-- A binding error passes through `generatePrompt` unchanged. -/
theorem generatePrompt_error {pf : PromptFile} {t : String} {values? : Option ValueMap}
    {e : PromptError} (h : parseAndValidateParameters pf values? = .error e) :
    generatePrompt pf t values? = .error e := by
  simp only [generatePrompt, h]

/-- The function `generatePrompt` depends on the caller values only through the parsed
bindings. -/
theorem generatePrompt_congr {pf : PromptFile} {t : String} {v1 v2 : Option ValueMap}
    (h : parseAndValidateParameters pf v1 = parseAndValidateParameters pf v2) :
    generatePrompt pf t v1 = generatePrompt pf t v2 := by
  simp only [generatePrompt, h]

/-- A binding-loop error is the result of `parseAndValidateParameters`. -/
theorem parse_error_intro {pf : PromptFile} {values? : Option ValueMap} {e : PromptError}
    (h : bindLoop (values?.getD []) pf.Config.Input.Default pf.Config.Input.Parameters =
      .error e) :
    parseAndValidateParameters pf values? = .error e := by
  simp only [parseAndValidateParameters, h]

/-- An object-typed caller value with a `String()` method binds that
exact string. -/
theorem bindEntry_value_stringer (values defaults : ValueMap) (key declaredType : String)
    {v : GoValue} {s : String} (hv : List.lookup (trimOptSuffix key) values = some v)
    (hty : strToLower declaredType = "object") (hs : asStringer v = some s) :
    bindEntry values defaults key declaredType = .ok (some (trimOptSuffix key, .str s)) := by
  simp [bindEntry, hv, hs, hty]

/-- An object-typed caller value without a `String()` method binds its
`%+v` dump. -/
theorem bindEntry_value_dump (values defaults : ValueMap) (key declaredType : String)
    {v : GoValue} (hv : List.lookup (trimOptSuffix key) values = some v)
    (hty : strToLower declaredType = "object") (hs : asStringer v = none) :
    bindEntry values defaults key declaredType =
      .ok (some (trimOptSuffix key, .str (formatPlusV v))) := by
  simp [bindEntry, hv, hs, hty]

/-- A caller value for a non-object declared type binds unchanged. -/
theorem bindEntry_value_pass (values defaults : ValueMap) (key declaredType : String)
    {v : GoValue} (hv : List.lookup (trimOptSuffix key) values = some v)
    (hty : strToLower declaredType ≠ "object") :
    bindEntry values defaults key declaredType = .ok (some (trimOptSuffix key, v)) := by
  cases hs : asStringer v <;> simp [bindEntry, hv, hs, beq_eq_false_iff_ne.mpr hty]

/-- A string field serialized under `omitempty` decodes back to itself. -/
theorem string_omit_getD (s : String) : (if s.length == 0 then none else some s).getD "" = s := by
  cases s with
  | mk l => cases l with
    | nil => rfl
    | cons c cs => rfl

/-- A list field serialized under `omitempty` decodes back to itself. -/
theorem list_omit_getD {a : Type} (l : List a) :
    (if l.isEmpty then none else some l).getD [] = l := by
  cases l <;> rfl

/-- Decoding the serialized document tree recovers the document exactly. -/
theorem decode_serialize (pf : PromptFile) : decodeYamlDoc (Serialize pf) = pf := by
  obtain ⟨nm, md, ⟨t, mx, of, ⟨ps, df⟩, o⟩, ⟨sys, usr⟩, fs⟩ := pf
  cases o with
  | none =>
    simp only [decodeYamlDoc, Serialize, string_omit_getD, list_omit_getD, Option.getD_some,
      Option.map_none']
  | some os =>
    obtain ⟨f⟩ := os
    simp only [decodeYamlDoc, Serialize, string_omit_getD, list_omit_getD, Option.getD_some,
      Option.map_some']

/-- Reconstructing a document from its own serialized tree and its own
name succeeds and returns the document unchanged, provided the document
satisfies the constructor-established invariants. -/
theorem NewPromptFile_self {pf : PromptFile}
    (huser : (pf.Prompts.User.length == 0) = false)
    (hname : (pf.Name.length == 0) = false)
    (hclean : cleanName pf.Name = pf.Name)
    (hparams : firstInvalidParam pf.Config.Input.Parameters = none)
    (hout : pf.Config.Output = some (OutputSchema.mk pf.Config.OutputFormat)) :
    NewPromptFile pf.Name (Serialize pf) = .ok pf := by
  simp only [NewPromptFile, decode_serialize, huser, Bool.false_eq_true, if_false, hname,
    hclean, hparams, hout, Option.getD_some]
  rw [← hout]

/-- Inversion of a successful construction: the returned document's name
is a sanitized non-empty name, its user template is non-empty, its
parameter types are valid, its two output-format locations agree, and all
other fields are read off the decoded tree. -/
theorem NewPromptFile_ok_inv {name : String} {doc : YamlDoc} {pf : PromptFile}
    (h : NewPromptFile name doc = .ok pf) :
    (∃ raw, pf.Name = cleanName raw) ∧
    (pf.Name.length == 0) = false ∧
    (pf.Prompts.User.length == 0) = false ∧
    firstInvalidParam pf.Config.Input.Parameters = none ∧
    pf.Config.Output = some (OutputSchema.mk pf.Config.OutputFormat) ∧
    pf.Prompts = (decodeYamlDoc doc).Prompts ∧
    pf.Model = (decodeYamlDoc doc).Model ∧
    pf.Config.Temperature = (decodeYamlDoc doc).Config.Temperature ∧
    pf.Config.MaxTokens = (decodeYamlDoc doc).Config.MaxTokens ∧
    pf.Config.Input = (decodeYamlDoc doc).Config.Input ∧
    pf.FewShots = (decodeYamlDoc doc).FewShots ∧
    pf.Config.OutputFormat =
      ((decodeYamlDoc doc).Config.Output.getD
        (OutputSchema.mk (decodeYamlDoc doc).Config.OutputFormat)).Format := by
  simp only [NewPromptFile] at h
  by_cases hu : ((decodeYamlDoc doc).Prompts.User.length == 0) = true
  · simp [hu] at h
  · rw [Bool.not_eq_true] at hu
    simp only [hu, Bool.false_eq_true, if_false] at h
    by_cases hn0 : ((decodeYamlDoc doc).Name.length == 0) = true
    · simp only [hn0, if_true] at h
      by_cases hcn : ((cleanName name).length == 0) = true
      · simp [hcn] at h
      · rw [Bool.not_eq_true] at hcn
        simp only [hcn, Bool.false_eq_true, if_false] at h
        cases hfi : firstInvalidParam (decodeYamlDoc doc).Config.Input.Parameters with
        | some kt =>
          obtain ⟨k, t⟩ := kt
          rw [hfi] at h
          simp at h
        | none =>
          rw [hfi] at h
          cases h
          exact ⟨⟨name, rfl⟩, hcn, hu, hfi, rfl, rfl, rfl, rfl, rfl, rfl, rfl, rfl⟩
    · rw [Bool.not_eq_true] at hn0
      simp only [hn0, Bool.false_eq_true, if_false] at h
      by_cases hcn : ((cleanName (decodeYamlDoc doc).Name).length == 0) = true
      · simp [hcn] at h
      · rw [Bool.not_eq_true] at hcn
        simp only [hcn, Bool.false_eq_true, if_false] at h
        cases hfi : firstInvalidParam (decodeYamlDoc doc).Config.Input.Parameters with
        | some kt =>
          obtain ⟨k, t⟩ := kt
          rw [hfi] at h
          simp at h
        | none =>
          rw [hfi] at h
          cases h
          exact ⟨⟨(decodeYamlDoc doc).Name, rfl⟩, hcn, hu, hfi, rfl, rfl, rfl, rfl, rfl,
            rfl, rfl, rfl⟩

/-! ## The claims -/

/-- C8: the name normalizer is a total function (it is defined for every
string and never fails) and idempotent:
`cleanName (cleanName x) = cleanName x` for every input string `x`. -/
theorem claim_normalize_idempotent (x : String) :
    cleanName (cleanName x) = cleanName x :=
  cleanName_idem x

/-- C1: round trip — for every validly constructed prompt file `d` (one
on which `NewPromptFile` succeeded), `NewPromptFile d.Name (Serialize d)`
succeeds and returns `d` itself, equal in all populated fields (name,
model, config including the reconciled output format, prompts, few-shot
examples). -/
theorem claim_roundtrip (name : String) (doc : YamlDoc) (d : PromptFile)
    (h : NewPromptFile name doc = .ok d) :
    NewPromptFile d.Name (Serialize d) = .ok d := by
  obtain ⟨⟨raw, hraw⟩, hname, huser, hparams, hout, -⟩ := NewPromptFile_ok_inv h
  exact NewPromptFile_self huser hname (by rw [hraw, cleanName_idem]) hparams hout

/-- C1 witness: the `basic.prompt`-shaped document round-trips. -/
theorem claim_roundtrip_witness :
    NewPromptFile "basic" (Serialize pfBasic) = .ok pfBasic ∧
    NewPromptFile pfBasic.Name (Serialize pfBasic) = .ok pfBasic :=
  ⟨rfl, claim_roundtrip "basic" (Serialize pfBasic) pfBasic rfl⟩

/-- C5: output-format reconciliation — after a successful construction
the nested output config is present and holds the same format as the
legacy top-level field (synthesized from the legacy field when absent,
overwriting it when present), and re-serialization reports that same
value in both locations, so both reads agree for the lifetime of the
document (all core operations on a constructed document are pure and
return the document unchanged). -/
theorem claim_output_format_reconciliation (name : String) (doc : YamlDoc) (pf : PromptFile)
    (h : NewPromptFile name doc = .ok pf) :
    pf.Config.Output = some (OutputSchema.mk pf.Config.OutputFormat) ∧
    (doc.output = none → pf.Config.OutputFormat = doc.outputFormat.getD OutputFormat.Text) ∧
    (∀ f, doc.output = some f → pf.Config.OutputFormat = f) ∧
    (Serialize pf).outputFormat = some pf.Config.OutputFormat ∧
    (Serialize pf).output = some pf.Config.OutputFormat := by
  obtain ⟨-, -, -, -, hout, -, -, -, -, -, -, hof⟩ := NewPromptFile_ok_inv h
  refine ⟨hout, ?_, ?_, rfl, ?_⟩
  · intro hn
    rw [hof]
    simp [decodeYamlDoc, hn]
  · intro f hf
    rw [hof]
    simp [decodeYamlDoc, hf]
  · simp [Serialize, hout]

/-- C5 witness: the reconciliation invariant at the basic document. -/
theorem claim_output_format_reconciliation_witness :
    pfBasic.Config.Output = some (OutputSchema.mk pfBasic.Config.OutputFormat) ∧
    (Serialize pfBasic).output = some pfBasic.Config.OutputFormat :=
  ⟨(claim_output_format_reconciliation "basic" (Serialize pfBasic) pfBasic rfl).1,
    (claim_output_format_reconciliation "basic" (Serialize pfBasic) pfBasic rfl).2.2.2.2⟩

/-- C4 (code defect, evaluated): the validation loop looks a binding's
declared type up under the un-suffixed binding key, so a declaration
carrying the `?` suffix is never found and its bound value escapes type
validation entirely: the textual value `"42"` bound to the optional
`number`-declared key `style?` is accepted and rendered, while the
identical value for the required `number`-declared key `age` is rejected
with the type-mismatch error naming the key and type (and an unsigned
integer value is likewise rejected, since the unsigned kinds are excluded
from `isNumeric`). -/
theorem claim_type_validation_skips_optional :
    parseAndValidateParameters pfOptNum (some [("style", GoValue.str "42")]) =
      .ok [("style", GoValue.str "42")] ∧
    GetUserPrompt pfOptNum (some [("style", GoValue.str "42")]) = .ok "Hello 42" ∧
    parseAndValidateParameters pfReqNum (some [("age", GoValue.str "42")]) =
      .error (PromptError.mk "parameter age is not a number") ∧
    parseAndValidateParameters pfReqNum (some [("age", GoValue.uint 42)]) =
      .error (PromptError.mk "parameter age is not a number") :=
  ⟨rfl, rfl, rfl, rfl⟩

/-- C3: JSON augmentation — when the output format is `Json` and neither
raw template mentions "json" case-insensitively, `GetSystemPrompt`
renders the system template with the fixed instruction appended
(verbatim for an empty system template, preceded by a single space
otherwise); when the format is `Text` or either raw template mentions
"json" the system template is rendered unmodified; with an empty system
template, empty schema and a json-free user template the result is
exactly the fixed instruction. -/
theorem claim_json_augmentation (pf : PromptFile) (values? : Option ValueMap) :
    (pf.Config.OutputFormat = OutputFormat.Json →
      containsSubstring (strToLower pf.Prompts.System) "json" = false →
      containsSubstring (strToLower pf.Prompts.User) "json" = false →
      GetSystemPrompt pf values? =
        generatePrompt pf
          (if pf.Prompts.System.length == 0 then promptSuffix
           else pf.Prompts.System ++ " " ++ promptSuffix) values?) ∧
    (pf.Config.OutputFormat = OutputFormat.Text ∨
        containsSubstring (strToLower pf.Prompts.System) "json" = true ∨
        containsSubstring (strToLower pf.Prompts.User) "json" = true →
      GetSystemPrompt pf values? = generatePrompt pf pf.Prompts.System values?) ∧
    GetSystemPrompt pfJsonEx (some []) = .ok promptSuffix := by
  refine ⟨?_, ?_, rfl⟩
  · intro h1 h2 h3
    simp [GetSystemPrompt, h1, h2, h3]
  · intro h
    rcases h with h | h | h <;> simp [GetSystemPrompt, h]

/-- C3 witness: the augmentation at the concrete json document. -/
theorem claim_json_augmentation_witness :
    GetSystemPrompt pfJsonEx (some []) =
      generatePrompt pfJsonEx
        (if pfJsonEx.Prompts.System.length == 0 then promptSuffix
         else pfJsonEx.Prompts.System ++ " " ++ promptSuffix) (some []) :=
  (claim_json_augmentation pfJsonEx (some [])).1 rfl (by decide) (by decide)

/-- C2: required-parameter enforcement — if a declared parameter key has
no trailing `?`, no caller value for the (un-suffixed) key and no
default, binding fails: `parseAndValidateParameters`, `GetUserPrompt` and
`GetSystemPrompt` all return the missing-parameter error (and no prompt),
whose message names, exactly as declared (required keys never carry the
suffix), a required key with no value and no default; when the given key
is the only such key the message names it. -/
theorem claim_required_parameter_enforcement (pf : PromptFile) (values : ValueMap)
    (key ty : String)
    (hmem : (key, ty) ∈ pf.Config.Input.Parameters)
    (hreq : hasOptSuffix key = false)
    (hv : List.lookup key values = none)
    (hd : List.lookup key pf.Config.Input.Default = none) :
    (∃ key', (∃ ty', (key', ty') ∈ pf.Config.Input.Parameters) ∧
      hasOptSuffix key' = false ∧
      List.lookup key' values = none ∧
      List.lookup key' pf.Config.Input.Default = none ∧
      parseAndValidateParameters pf (some values) =
        .error (PromptError.mk ("no value provided for parameter " ++ key')) ∧
      GetUserPrompt pf (some values) =
        .error (PromptError.mk ("no value provided for parameter " ++ key')) ∧
      GetSystemPrompt pf (some values) =
        .error (PromptError.mk ("no value provided for parameter " ++ key'))) ∧
    ((∀ k' t', (k', t') ∈ pf.Config.Input.Parameters → hasOptSuffix k' = false →
        List.lookup k' values = none → List.lookup k' pf.Config.Input.Default = none →
        k' = key) →
      GetUserPrompt pf (some values) =
        .error (PromptError.mk ("no value provided for parameter " ++ key))) := by
  have hv' : List.lookup (trimOptSuffix key) values = none := by
    rwa [trimOptSuffix_required hreq]
  have hd' : List.lookup (trimOptSuffix key) pf.Config.Input.Default = none := by
    rwa [trimOptSuffix_required hreq]
  obtain ⟨key', hk'mem, hk'q, hk'v, hk'd, hloop⟩ :=
    bindLoop_error_of_missing hmem hreq hv' hd'
  rw [trimOptSuffix_required hk'q] at hk'v hk'd
  have hparse : parseAndValidateParameters pf (some values) =
      .error (PromptError.mk ("no value provided for parameter " ++ key')) :=
    parse_error_intro hloop
  refine ⟨⟨key', hk'mem, hk'q, hk'v, hk'd, hparse, generatePrompt_error hparse,
      generatePrompt_error hparse⟩, ?_⟩
  intro huniq
  obtain ⟨ty', hk'mem'⟩ := hk'mem
  have hkey : key' = key := huniq key' ty' hk'mem' hk'q hk'v hk'd
  rw [← hkey]
  exact generatePrompt_error hparse

/-- C2 witness: a schema with the single required key `topic` and no
default fails on an empty value set with the error naming `topic`. -/
theorem claim_required_parameter_enforcement_witness :
    GetUserPrompt pfTopic (some []) =
      .error (PromptError.mk "no value provided for parameter topic") :=
  (claim_required_parameter_enforcement pfTopic [] "topic" "string" (by decide) (by decide)
      rfl rfl).2
    (fun k' t' hm _ _ _ => by
      simp only [pfTopic, List.mem_singleton] at hm
      rw [Prod.mk.injEq] at hm
      exact hm.1)

/-- C6: default substitution — a declared key with no caller value but a
default binds the default; and for the basic document (schema
`country: string`, default `country: "Malta"`) with empty caller values
the rendered user prompt contains "Malta". -/
theorem claim_default_substitution (pf : PromptFile) (values b : ValueMap)
    (key ty : String) (d : GoValue)
    (hmem : (key, ty) ∈ pf.Config.Input.Parameters)
    (hv : List.lookup (trimOptSuffix key) values = none)
    (hd : List.lookup (trimOptSuffix key) pf.Config.Input.Default = some d)
    (hok : parseAndValidateParameters pf (some values) = .ok b) :
    List.lookup (trimOptSuffix key) b = some d ∧
    (∀ s, GetUserPrompt pfBasic (some []) = .ok s → containsSubstring s "Malta" = true) := by
  constructor
  · have hloop := parse_ok_bindLoop hok
    refine bindLoop_lookup_first hloop hmem
      (bindEntry_default values pf.Config.Input.Default key ty hv hd) ?_
    intro k' t' hm' ht'
    left
    have hv' : List.lookup (trimOptSuffix k') values = none := by rw [ht']; exact hv
    have hd' : List.lookup (trimOptSuffix k') pf.Config.Input.Default = some d := by
      rw [ht']; exact hd
    have h2 := bindEntry_default values pf.Config.Input.Default k' t' hv' hd'
    rw [ht'] at h2
    exact h2
  · intro s hs
    have hrender : GetUserPrompt pfBasic (some []) =
        .ok "I am looking at going on holiday to Malta and would like to know more about it, what can you tell me?" := rfl
    rw [hrender] at hs
    cases hs
    decide

/-- C6 witness: the basic document's default for `country` binds and the
prompt renders with "Malta". -/
theorem claim_default_substitution_witness :
    List.lookup (trimOptSuffix "country") [("country", GoValue.str "Malta")] =
      some (GoValue.str "Malta") ∧
    containsSubstring
      "I am looking at going on holiday to Malta and would like to know more about it, what can you tell me?"
      "Malta" = true :=
  ⟨(claim_default_substitution pfBasic [] [("country", GoValue.str "Malta")]
      "country" "string" (GoValue.str "Malta") (by decide) rfl rfl rfl).1,
    (claim_default_substitution pfBasic [] [("country", GoValue.str "Malta")]
      "country" "string" (GoValue.str "Malta") (by decide) rfl rfl rfl).2 _ rfl⟩

/-- C7: optional omission — a declared key carrying the `?` marker with
no caller value and no default is absent from the binding set (not bound
to a null or empty value); when every required key is satisfied the
binding loop succeeds with the key absent; and a `nil` caller map behaves
exactly like an empty one. -/
theorem claim_optional_omission (pf : PromptFile) (values : ValueMap) (key ty : String)
    (_hmem : (key, ty) ∈ pf.Config.Input.Parameters)
    (_hopt : hasOptSuffix key = true)
    (hv : List.lookup (trimOptSuffix key) values = none)
    (hd : List.lookup (trimOptSuffix key) pf.Config.Input.Default = none) :
    (∀ b, parseAndValidateParameters pf (some values) = .ok b →
      List.lookup (trimOptSuffix key) b = none) ∧
    ((∀ k' t', (k', t') ∈ pf.Config.Input.Parameters → hasOptSuffix k' = false →
        List.lookup (trimOptSuffix k') values = none →
        List.lookup (trimOptSuffix k') pf.Config.Input.Default ≠ none) →
      ∃ b, bindLoop values pf.Config.Input.Default pf.Config.Input.Parameters = .ok b ∧
        List.lookup (trimOptSuffix key) b = none) ∧
    (∀ pf' : PromptFile, parseAndValidateParameters pf' none =
      parseAndValidateParameters pf' (some [])) := by
  refine ⟨?_, ?_, fun pf' => rfl⟩
  · intro b hok
    exact bindLoop_lookup_none (parse_ok_bindLoop hok) hv hd
  · intro hsat
    obtain ⟨b, hb⟩ := bindLoop_ok_of_required hsat
    exact ⟨b, hb, bindLoop_lookup_none hb hv hd⟩

/-- C7 witness: for schema `topic: string, style?: string` with only
`topic` supplied, binding succeeds and `style` is unbound. -/
theorem claim_optional_omission_witness :
    ∃ b, bindLoop [("topic", GoValue.str "bees")] pfStyle.Config.Input.Default
        pfStyle.Config.Input.Parameters = .ok b ∧
      List.lookup (trimOptSuffix "style?") b = none :=
  (claim_optional_omission pfStyle [("topic", GoValue.str "bees")] "style?" "string"
      (by decide) (by decide) (by decide) (by decide)).2.1
    (fun k' t' hm hq hv => by
      simp only [pfStyle, List.mem_cons, List.not_mem_nil, or_false, Prod.mk.injEq] at hm
      rcases hm with ⟨rfl, rfl⟩ | ⟨rfl, rfl⟩
      · exact absurd hv (by decide)
      · exact absurd hq (by decide))

/-- C9: object stringification at binding — a caller value for an
`object`-declared key binds as a string: the exact `String()` result when
the value implements `fmt.Stringer`, otherwise the deterministic
field-dump; a caller value for a non-object declared type passes through
unchanged. -/
theorem claim_object_stringification (pf : PromptFile) (values b : ValueMap)
    (key declaredType : String) (v : GoValue)
    (hmem : (key, declaredType) ∈ pf.Config.Input.Parameters)
    (hv : List.lookup (trimOptSuffix key) values = some v)
    (huniq : ∀ k' t', (k', t') ∈ pf.Config.Input.Parameters →
      trimOptSuffix k' = trimOptSuffix key → k' = key ∧ t' = declaredType)
    (hok : parseAndValidateParameters pf (some values) = .ok b) :
    (strToLower declaredType = "object" →
      (∀ s, asStringer v = some s → List.lookup (trimOptSuffix key) b = some (.str s)) ∧
      (asStringer v = none →
        List.lookup (trimOptSuffix key) b = some (.str (formatPlusV v)))) ∧
    (strToLower declaredType ≠ "object" → List.lookup (trimOptSuffix key) b = some v) := by
  have hloop := parse_ok_bindLoop hok
  have hall : ∀ x, bindEntry values pf.Config.Input.Default key declaredType =
      .ok (some (trimOptSuffix key, x)) →
      ∀ k' t', (k', t') ∈ pf.Config.Input.Parameters →
        trimOptSuffix k' = trimOptSuffix key →
        bindEntry values pf.Config.Input.Default k' t' =
          .ok (some (trimOptSuffix key, x)) ∨
        bindEntry values pf.Config.Input.Default k' t' = .ok none := by
    intro x hx k' t' hm' ht'
    obtain ⟨rfl, rfl⟩ := huniq k' t' hm' ht'
    exact Or.inl hx
  refine ⟨fun hty => ⟨fun s hs => ?_, fun hs => ?_⟩, fun hty => ?_⟩
  · have hx := bindEntry_value_stringer values pf.Config.Input.Default key declaredType
      hv hty hs
    exact bindLoop_lookup_first hloop hmem hx (hall _ hx)
  · have hx := bindEntry_value_dump values pf.Config.Input.Default key declaredType
      hv hty hs
    exact bindLoop_lookup_first hloop hmem hx (hall _ hx)
  · have hx := bindEntry_value_pass values pf.Config.Input.Default key declaredType hv hty
    exact bindLoop_lookup_first hloop hmem hx (hall _ hx)

/-- C9 witness: a structured value with a `String()` method binds its
exact string for the object-declared parameter of `pfObj`. -/
theorem claim_object_stringification_witness :
    List.lookup (trimOptSuffix "param")
      [("param", GoValue.str "Hello : 12")] = some (GoValue.str "Hello : 12") :=
  ((claim_object_stringification pfObj
      [("param", GoValue.obj [("Item1", "Hello"), ("Item2", "12")] (some "Hello : 12"))]
      [("param", GoValue.str "Hello : 12")] "param" "object"
      (GoValue.obj [("Item1", "Hello"), ("Item2", "12")] (some "Hello : 12"))
      (by decide) rfl
      (fun k' t' hm ht => by
        simp only [pfObj, List.mem_cons, List.not_mem_nil, or_false, Prod.mk.injEq] at hm
        exact hm)
      rfl).1 rfl).1 "Hello : 12" rfl

/-- C10: undeclared caller values are ignored — every binding produced by
a successful bind is keyed by the un-suffixed form of some declared key,
and prepending a caller entry whose key matches no declared un-suffixed
key changes neither the parse result nor either rendered prompt (in
particular it causes no error). -/
theorem claim_undeclared_values_ignored (pf : PromptFile) (values? : Option ValueMap)
    (b values : ValueMap) (j : String) (w : GoValue)
    (hok : parseAndValidateParameters pf values? = .ok b)
    (hj : ∀ key ty, (key, ty) ∈ pf.Config.Input.Parameters → trimOptSuffix key ≠ j) :
    (∀ kv ∈ b, ∃ e ∈ pf.Config.Input.Parameters, trimOptSuffix e.1 = kv.1) ∧
    parseAndValidateParameters pf (some ((j, w) :: values)) =
      parseAndValidateParameters pf (some values) ∧
    GetUserPrompt pf (some ((j, w) :: values)) = GetUserPrompt pf (some values) ∧
    GetSystemPrompt pf (some ((j, w) :: values)) = GetSystemPrompt pf (some values) := by
  refine ⟨bindLoop_mem (parse_ok_bindLoop hok), parse_extend hj,
    generatePrompt_congr (parse_extend hj), generatePrompt_congr (parse_extend hj)⟩

/-- C10 witness: the undeclared entry `unused` does not change the basic
document's rendered user prompt. -/
theorem claim_undeclared_values_ignored_witness :
    GetUserPrompt pfBasic (some (("unused", GoValue.str "v") ::
      [("country", GoValue.str "Antarctica")])) =
      GetUserPrompt pfBasic (some [("country", GoValue.str "Antarctica")]) :=
  (claim_undeclared_values_ignored pfBasic (some [("country", GoValue.str "Antarctica")])
      [("country", GoValue.str "Antarctica")] [("country", GoValue.str "Antarctica")]
      "unused" (GoValue.str "v") rfl
      (fun key ty hm => by
        simp only [pfBasic, List.mem_cons, List.not_mem_nil, or_false, Prod.mk.injEq] at hm
        rcases hm with ⟨rfl, rfl⟩ | ⟨rfl, rfl⟩ <;> decide)).2.2.1

end Dotprompt
